import Mathlib

/-!
Verification of the wagon interpreter core (Go package `exec`) against its
specification.  The Go code is shallowly embedded: the operand stack is a list
of 64-bit words (`Nat`, kept below `2^64` by the push routines), handlers are
functions from stacks to `Except`-results, and Go runtime panics as well as the
interpreter's trap values are explicit error outcomes.
-/

namespace Wagon

/-- A stack slot: one Go `uint64` machine word. -/
abbrev Slot := Nat

/-- The operand stack.  Head of the list is the top of the stack
(the end of the Go slice `vm.ctx.stack`). -/
abbrev Stack := List Slot

/-- Abnormal outcomes: the interpreter's trap error values (`panic(Err...)`
in the source) and the Go runtime panics that its unchecked operations can
raise. -/
inductive GoPanic where
  /-- `ErrOutOfBoundsMemoryAccess` (exec/memory.go). -/
  | errOutOfBoundsMemoryAccess
  /-- `ErrSignatureMismatch` (call.go). -/
  | errSignatureMismatch
  /-- `ErrUndefinedElementIndex` (call.go). -/
  | errUndefinedElementIndex
  /-- `ErrUnreachable`. -/
  | errUnreachable
  /-- Go run-time error: integer divide by zero. -/
  | runtimeDivideByZero
  /-- Go run-time error: index out of range (slice access). -/
  | runtimeIndexOutOfRange
  /-- Go run-time error: invalid memory address or nil pointer dereference. -/
  | runtimeNilPointer
  deriving DecidableEq, Repr

instance {ε α : Type} [DecidableEq ε] [DecidableEq α] : DecidableEq (Except ε α) :=
  fun x y =>
  match x, y with
  | .ok a, .ok b =>
    if h : a = b then .isTrue (by rw [h]) else .isFalse (fun hh => h (Except.ok.inj hh))
  | .error a, .error b =>
    if h : a = b then .isTrue (by rw [h]) else .isFalse (fun hh => h (Except.error.inj hh))
  | .ok _, .error _ => .isFalse (fun hh => Except.noConfusion hh)
  | .error _, .ok _ => .isFalse (fun hh => Except.noConfusion hh)

/-! ## Machine-word conversions (vm.go push/pop/fetch helpers) -/

/-- Go `uint64(n)` view of a natural number. -/
def toUint64 (n : Nat) : Nat := n % 2 ^ 64

/-- Go `uint32(n)`: the low 32 bits of a word. -/
def toUint32 (n : Nat) : Nat := n % 2 ^ 32

/-- Go `int32(u)` reinterpretation of the low 32 bits as a signed value
(two's complement). -/
def int32OfBits (b : Nat) : Int :=
  if b % 2 ^ 32 < 2 ^ 31 then (b % 2 ^ 32 : Int) else (b % 2 ^ 32 : Int) - 2 ^ 32

/-- Go `int64(u)` reinterpretation of a 64-bit word as a signed value. -/
def int64OfBits (b : Nat) : Int :=
  if b % 2 ^ 64 < 2 ^ 63 then (b % 2 ^ 64 : Int) else (b % 2 ^ 64 : Int) - 2 ^ 64

/-- Go `uint64(i)` of a signed value: reduction modulo `2^64`.  For an `int32`
or `int64` argument this is the 64-bit sign extension of its bit pattern. -/
def bits64OfInt (i : Int) : Nat := (i % (2 ^ 64 : Int)).toNat

/-- The `uint32` two's-complement bit pattern of a signed 32-bit value. -/
def bits32OfInt (i : Int) : Nat := (i % (2 ^ 32 : Int)).toNat

/-- Go two's-complement wrap-around into `int32` range (what Go `int32`
arithmetic does on overflow). -/
def wrap32 (i : Int) : Int := (i + 2 ^ 31) % 2 ^ 32 - 2 ^ 31

/-- Go two's-complement wrap-around into `int64` range. -/
def wrap64 (i : Int) : Int := (i + 2 ^ 63) % 2 ^ 64 - 2 ^ 63

/-- `vm.pushUint64`: append a word to the stack. -/
def pushUint64 (i : Nat) (s : Stack) : Stack := toUint64 i :: s

/-- `vm.pushInt64`: `vm.pushUint64(uint64(i))`. -/
def pushInt64 (i : Int) (s : Stack) : Stack := pushUint64 (bits64OfInt i) s

/-- `vm.pushUint32`: `vm.pushUint64(uint64(i))` for `i : uint32`
(zero extension). -/
def pushUint32 (i : Nat) (s : Stack) : Stack := pushUint64 (toUint32 i) s

/-- `vm.pushInt32`: `vm.pushUint64(uint64(i))` for `i : int32`.  Go's
`uint64(int32)` conversion sign-extends, so negative values fill the upper
32 bits with ones. -/
def pushInt32 (i : Int) (s : Stack) : Stack := pushUint64 (bits64OfInt i) s

/-- `vm.pushBool`: push 1 for true, 0 for false. -/
def pushBool (b : Bool) (s : Stack) : Stack :=
  if b then pushUint64 1 s else pushUint64 0 s

/-! ## Go integer primitives used by the handlers

Divisions panic on a zero divisor with Go's run-time error; `INT_MIN / -1`
wraps (Go spec: the quotient equals the dividend due to two's-complement
overflow).  Shifts do not mask the count: Go shifts behave as if the operand
were shifted one bit at a time, so counts of the operand width or more
produce 0 (or the sign fill). -/

/-- Go signed division `v1 / v2` on `int32`. -/
def goDiv32 (a b : Int) : Except GoPanic Int :=
  if b = 0 then .error .runtimeDivideByZero else .ok (wrap32 (a.tdiv b))

/-- Go signed remainder `v1 % v2` on `int32` (truncated remainder; never
overflows). -/
def goRem32 (a b : Int) : Except GoPanic Int :=
  if b = 0 then .error .runtimeDivideByZero else .ok (a.tmod b)

/-- Go signed division `v1 / v2` on `int64`. -/
def goDiv64 (a b : Int) : Except GoPanic Int :=
  if b = 0 then .error .runtimeDivideByZero else .ok (wrap64 (a.tdiv b))

/-- Go signed remainder `v1 % v2` on `int64`. -/
def goRem64 (a b : Int) : Except GoPanic Int :=
  if b = 0 then .error .runtimeDivideByZero else .ok (a.tmod b)

/-- Go unsigned division with its divide-by-zero panic. -/
def goDivU (a b : Nat) : Except GoPanic Nat :=
  if b = 0 then .error .runtimeDivideByZero else .ok (a / b)

/-- Go unsigned remainder with its divide-by-zero panic. -/
def goRemU (a b : Nat) : Except GoPanic Nat :=
  if b = 0 then .error .runtimeDivideByZero else .ok (a % b)

/-- Go arithmetic (sign-filling) right shift of an `int32`/`int64` value by
`k` bits: floor division by `2^k`. -/
def goShrS (a : Int) (k : Nat) : Int := Int.fdiv a (2 ^ k)

/-- `bits.RotateLeft32`: rotate the low 32 bits left by `k mod 32`
(`k` may be negative, as in `RotateLeft32(x, -int(v2))`). -/
def rotateLeft32 (x : Nat) (k : Int) : Nat :=
  let r : Nat := (k % 32).toNat
  (x * 2 ^ r + x / 2 ^ (32 - r)) % 2 ^ 32

/-- `bits.RotateLeft64`. -/
def rotateLeft64 (x : Nat) (k : Int) : Nat :=
  let r : Nat := (k % 64).toNat
  (x * 2 ^ r + x / 2 ^ (64 - r)) % 2 ^ 64

/-- Bit length of a natural number (`0` for `0`); models the helper used by
`bits.LeadingZeros32`. -/
def natBitLen (v : Nat) : Nat :=
  if h : v = 0 then 0 else natBitLen (v / 2) + 1
termination_by v
decreasing_by exact Nat.div_lt_self (Nat.pos_of_ne_zero h) (by omega)

/-- `bits.OnesCount32`-style population count. -/
def natOnes (v : Nat) : Nat :=
  if h : v = 0 then 0 else v % 2 + natOnes (v / 2)
termination_by v
decreasing_by exact Nat.div_lt_self (Nat.pos_of_ne_zero h) (by omega)

/-- `bits.TrailingZeros32`-style count of trailing zero bits of a positive
number. -/
def natCtz (v : Nat) : Nat :=
  if h : v = 0 then 0
  else if v % 2 = 1 then 0 else natCtz (v / 2) + 1
termination_by v
decreasing_by exact Nat.div_lt_self (Nat.pos_of_ne_zero h) (by omega)

/-- `bits.LeadingZeros32`. -/
def leadingZeros32 (v : Nat) : Nat := 32 - natBitLen v

/-- `bits.TrailingZeros32` (returns 32 for 0). -/
def trailingZeros32 (v : Nat) : Nat := if v = 0 then 32 else natCtz v

/-! ## int32 operator handlers (num.go)

Each handler mirrors its Go source: the pops in source order (the head of the
list is the top of the stack), the computation on the popped values, and the
push of the result.  A pop from a too-short stack is Go's index-out-of-range
panic. -/

def i32Clz : Stack → Except GoPanic Stack
  | t1 :: rest => .ok (pushUint64 (leadingZeros32 (toUint32 t1)) rest)
  | _ => .error .runtimeIndexOutOfRange

def i32Ctz : Stack → Except GoPanic Stack
  | t1 :: rest => .ok (pushUint64 (trailingZeros32 (toUint32 t1)) rest)
  | _ => .error .runtimeIndexOutOfRange

def i32Popcnt : Stack → Except GoPanic Stack
  | t1 :: rest => .ok (pushUint64 (natOnes (toUint32 t1)) rest)
  | _ => .error .runtimeIndexOutOfRange

def i32Add : Stack → Except GoPanic Stack
  | t1 :: t2 :: rest => .ok (pushUint32 (toUint32 t1 + toUint32 t2) rest)
  | _ => .error .runtimeIndexOutOfRange

def i32Sub : Stack → Except GoPanic Stack
  | t1 :: t2 :: rest =>
    -- v2 is popped first (the top), then v1; the result is v1 - v2.
    -- Go uint32 subtraction wraps modulo 2^32.
    .ok (pushUint32 (toUint32 t2 + (2 ^ 32 - toUint32 t1)) rest)
  | _ => .error .runtimeIndexOutOfRange

def i32Mul : Stack → Except GoPanic Stack
  | t1 :: t2 :: rest => .ok (pushUint32 (toUint32 t2 * toUint32 t1) rest)
  | _ => .error .runtimeIndexOutOfRange

def i32DivS : Stack → Except GoPanic Stack
  | t1 :: t2 :: rest =>
    (goDiv32 (int32OfBits t2) (int32OfBits t1)).map fun val => pushInt32 val rest
  | _ => .error .runtimeIndexOutOfRange

def i32DivU : Stack → Except GoPanic Stack
  | t1 :: t2 :: rest =>
    (goDivU (toUint32 t2) (toUint32 t1)).map fun val => pushUint32 val rest
  | _ => .error .runtimeIndexOutOfRange

def i32RemS : Stack → Except GoPanic Stack
  | t1 :: t2 :: rest =>
    (goRem32 (int32OfBits t2) (int32OfBits t1)).map fun val => pushInt32 val rest
  | _ => .error .runtimeIndexOutOfRange

def i32RemU : Stack → Except GoPanic Stack
  | t1 :: t2 :: rest =>
    (goRemU (toUint32 t2) (toUint32 t1)).map fun val => pushUint32 val rest
  | _ => .error .runtimeIndexOutOfRange

def i32And : Stack → Except GoPanic Stack
  | t1 :: t2 :: rest => .ok (pushUint32 (toUint32 t2 &&& toUint32 t1) rest)
  | _ => .error .runtimeIndexOutOfRange

def i32Or : Stack → Except GoPanic Stack
  | t1 :: t2 :: rest => .ok (pushUint32 (toUint32 t2 ||| toUint32 t1) rest)
  | _ => .error .runtimeIndexOutOfRange

def i32Xor : Stack → Except GoPanic Stack
  | t1 :: t2 :: rest => .ok (pushUint32 (toUint32 t2 ^^^ toUint32 t1) rest)
  | _ => .error .runtimeIndexOutOfRange

def i32Shl : Stack → Except GoPanic Stack
  | t1 :: t2 :: rest =>
    -- val := v1 << v2; the shift amount is NOT masked modulo 32.
    .ok (pushUint32 (toUint32 t2 <<< toUint32 t1) rest)
  | _ => .error .runtimeIndexOutOfRange

def i32ShrS : Stack → Except GoPanic Stack
  | t1 :: t2 :: rest =>
    -- v2 := popUint32 (the count), v1 := popInt32; unmasked arithmetic shift.
    .ok (pushInt32 (goShrS (int32OfBits t2) (toUint32 t1)) rest)
  | _ => .error .runtimeIndexOutOfRange

def i32ShrU : Stack → Except GoPanic Stack
  | t1 :: t2 :: rest => .ok (pushUint32 (toUint32 t2 >>> toUint32 t1) rest)
  | _ => .error .runtimeIndexOutOfRange

def i32Rotl : Stack → Except GoPanic Stack
  | t1 :: t2 :: rest =>
    .ok (pushUint32 (rotateLeft32 (toUint32 t2) (toUint32 t1 : Int)) rest)
  | _ => .error .runtimeIndexOutOfRange

def i32Rotr : Stack → Except GoPanic Stack
  | t1 :: t2 :: rest =>
    .ok (pushUint32 (rotateLeft32 (toUint32 t2) (-(toUint32 t1 : Int))) rest)
  | _ => .error .runtimeIndexOutOfRange

def i32LeS : Stack → Except GoPanic Stack
  | t1 :: t2 :: rest => .ok (pushBool (decide (int32OfBits t2 ≤ int32OfBits t1)) rest)
  | _ => .error .runtimeIndexOutOfRange

def i32LeU : Stack → Except GoPanic Stack
  | t1 :: t2 :: rest => .ok (pushBool (decide (toUint32 t2 ≤ toUint32 t1)) rest)
  | _ => .error .runtimeIndexOutOfRange

def i32LtS : Stack → Except GoPanic Stack
  | t1 :: t2 :: rest => .ok (pushBool (decide (int32OfBits t2 < int32OfBits t1)) rest)
  | _ => .error .runtimeIndexOutOfRange

def i32LtU : Stack → Except GoPanic Stack
  | t1 :: t2 :: rest => .ok (pushBool (decide (toUint32 t2 < toUint32 t1)) rest)
  | _ => .error .runtimeIndexOutOfRange

def i32GtS : Stack → Except GoPanic Stack
  | t1 :: t2 :: rest => .ok (pushBool (decide (int32OfBits t1 < int32OfBits t2)) rest)
  | _ => .error .runtimeIndexOutOfRange

def i32GtU : Stack → Except GoPanic Stack
  | t1 :: t2 :: rest => .ok (pushBool (decide (toUint32 t1 < toUint32 t2)) rest)
  | _ => .error .runtimeIndexOutOfRange

def i32GeS : Stack → Except GoPanic Stack
  | t1 :: t2 :: rest => .ok (pushBool (decide (int32OfBits t1 ≤ int32OfBits t2)) rest)
  | _ => .error .runtimeIndexOutOfRange

def i32GeU : Stack → Except GoPanic Stack
  | t1 :: t2 :: rest => .ok (pushBool (decide (toUint32 t1 ≤ toUint32 t2)) rest)
  | _ => .error .runtimeIndexOutOfRange

def i32Eqz : Stack → Except GoPanic Stack
  | t1 :: rest => .ok (pushBool (decide (toUint32 t1 = 0)) rest)
  | _ => .error .runtimeIndexOutOfRange

def i32Eq : Stack → Except GoPanic Stack
  | t1 :: t2 :: rest => .ok (pushBool (decide (toUint32 t1 = toUint32 t2)) rest)
  | _ => .error .runtimeIndexOutOfRange

def i32Ne : Stack → Except GoPanic Stack
  | t1 :: t2 :: rest => .ok (pushBool (decide (¬ toUint32 t2 = toUint32 t1)) rest)
  | _ => .error .runtimeIndexOutOfRange

/-! ## int64 operator handlers (the ones the claims need) -/

def i64DivS : Stack → Except GoPanic Stack
  | t1 :: t2 :: rest =>
    (goDiv64 (int64OfBits t2) (int64OfBits t1)).map fun val => pushInt64 val rest
  | _ => .error .runtimeIndexOutOfRange

def i64DivU : Stack → Except GoPanic Stack
  | t1 :: t2 :: rest =>
    (goDivU (toUint64 t2) (toUint64 t1)).map fun val => pushUint64 val rest
  | _ => .error .runtimeIndexOutOfRange

def i64RemS : Stack → Except GoPanic Stack
  | t1 :: t2 :: rest =>
    (goRem64 (int64OfBits t2) (int64OfBits t1)).map fun val => pushInt64 val rest
  | _ => .error .runtimeIndexOutOfRange

def i64RemU : Stack → Except GoPanic Stack
  | t1 :: t2 :: rest =>
    (goRemU (toUint64 t2) (toUint64 t1)).map fun val => pushUint64 val rest
  | _ => .error .runtimeIndexOutOfRange

def i64Shl : Stack → Except GoPanic Stack
  | t1 :: t2 :: rest => .ok (pushUint64 (toUint64 t2 <<< toUint64 t1) rest)
  | _ => .error .runtimeIndexOutOfRange

def i64ShrS : Stack → Except GoPanic Stack
  | t1 :: t2 :: rest =>
    .ok (pushInt64 (goShrS (int64OfBits t2) (toUint64 t1)) rest)
  | _ => .error .runtimeIndexOutOfRange

def i64ShrU : Stack → Except GoPanic Stack
  | t1 :: t2 :: rest => .ok (pushUint64 (toUint64 t2 >>> toUint64 t1) rest)
  | _ => .error .runtimeIndexOutOfRange

/-! ## Linear memory and the memory operators (exec/memory.go)

Memory is the byte array `vm.memory`; a memory handler also sees the 4-byte
static offset immediate fetched from the code stream.  Because a failing
access must be shown to leave memory unchanged, the error outcome carries the
machine state at the moment of the panic. -/

/-- Memory plus operand stack, the state a memory handler touches. -/
structure MemVM where
  mem : List Nat
  stack : Stack
  deriving DecidableEq, Repr

/-- Result of a memory handler: normal next state, or a panic together with
the state at the time of the panic. -/
abbrev MemResult := Except (GoPanic × MemVM) MemVM

/-- `vm.fetchBaseAddr()`: `int(vm.fetchUint32() + uint32(vm.popInt32()))`,
the uint32 sum of the static offset immediate and the popped base (wrapping
modulo `2^32`).  `inBounds` computes the same address from the un-advanced
program counter and the un-popped stack top. -/
def effAddr (off base : Nat) : Nat := (toUint32 off + toUint32 base) % 2 ^ 32

/-- `endianess.Uint16/32/64`: read `w` bytes little-endian starting at
`addr`. -/
def readLE (mem : List Nat) (addr : Nat) : Nat → Nat
  | 0 => 0
  | w + 1 => mem.getD addr 0 + 256 * readLE mem (addr + 1) w

/-- `endianess.PutUint16/32/64`: write the `w` low bytes of `val`
little-endian starting at `addr`. -/
def writeLE (mem : List Nat) (addr val : Nat) : Nat → List Nat
  | 0 => mem
  | w + 1 => writeLE (mem.set addr (val % 256)) (addr + 1) (val / 256) w

/-- Go `int8(b)` reinterpretation of a byte. -/
def int8OfBits (b : Nat) : Int :=
  if b % 2 ^ 8 < 2 ^ 7 then (b % 2 ^ 8 : Int) else (b % 2 ^ 8 : Int) - 2 ^ 8

/-- Go `int16(b)` reinterpretation of the low 16 bits. -/
def int16OfBits (b : Nat) : Int :=
  if b % 2 ^ 16 < 2 ^ 15 then (b % 2 ^ 16 : Int) else (b % 2 ^ 16 : Int) - 2 ^ 16

/-- `vm.i32Load`: `inBounds(3)` check, then fetch the base address and push
the 4 little-endian bytes as a uint32. -/
def i32Load (off : Nat) (mem : List Nat) : Stack → MemResult
  | base :: rest =>
    if effAddr off base + 3 < mem.length then
      .ok ⟨mem, pushUint32 (readLE mem (effAddr off base) 4) rest⟩
    else .error (.errOutOfBoundsMemoryAccess, ⟨mem, base :: rest⟩)
  | [] => .error (.runtimeIndexOutOfRange, ⟨mem, []⟩)

def i32Load8s (off : Nat) (mem : List Nat) : Stack → MemResult
  | base :: rest =>
    if effAddr off base + 0 < mem.length then
      .ok ⟨mem, pushInt32 (int8OfBits (mem.getD (effAddr off base) 0)) rest⟩
    else .error (.errOutOfBoundsMemoryAccess, ⟨mem, base :: rest⟩)
  | [] => .error (.runtimeIndexOutOfRange, ⟨mem, []⟩)

def i32Load8u (off : Nat) (mem : List Nat) : Stack → MemResult
  | base :: rest =>
    if effAddr off base + 0 < mem.length then
      .ok ⟨mem, pushUint32 (mem.getD (effAddr off base) 0) rest⟩
    else .error (.errOutOfBoundsMemoryAccess, ⟨mem, base :: rest⟩)
  | [] => .error (.runtimeIndexOutOfRange, ⟨mem, []⟩)

def i32Load16s (off : Nat) (mem : List Nat) : Stack → MemResult
  | base :: rest =>
    if effAddr off base + 1 < mem.length then
      .ok ⟨mem, pushInt32 (int16OfBits (readLE mem (effAddr off base) 2)) rest⟩
    else .error (.errOutOfBoundsMemoryAccess, ⟨mem, base :: rest⟩)
  | [] => .error (.runtimeIndexOutOfRange, ⟨mem, []⟩)

def i32Load16u (off : Nat) (mem : List Nat) : Stack → MemResult
  | base :: rest =>
    if effAddr off base + 1 < mem.length then
      .ok ⟨mem, pushUint32 (readLE mem (effAddr off base) 2) rest⟩
    else .error (.errOutOfBoundsMemoryAccess, ⟨mem, base :: rest⟩)
  | [] => .error (.runtimeIndexOutOfRange, ⟨mem, []⟩)

def i64Load (off : Nat) (mem : List Nat) : Stack → MemResult
  | base :: rest =>
    if effAddr off base + 7 < mem.length then
      .ok ⟨mem, pushUint64 (readLE mem (effAddr off base) 8) rest⟩
    else .error (.errOutOfBoundsMemoryAccess, ⟨mem, base :: rest⟩)
  | [] => .error (.runtimeIndexOutOfRange, ⟨mem, []⟩)

def i64Load8s (off : Nat) (mem : List Nat) : Stack → MemResult
  | base :: rest =>
    if effAddr off base + 0 < mem.length then
      .ok ⟨mem, pushInt64 (int8OfBits (mem.getD (effAddr off base) 0)) rest⟩
    else .error (.errOutOfBoundsMemoryAccess, ⟨mem, base :: rest⟩)
  | [] => .error (.runtimeIndexOutOfRange, ⟨mem, []⟩)

def i64Load8u (off : Nat) (mem : List Nat) : Stack → MemResult
  | base :: rest =>
    if effAddr off base + 0 < mem.length then
      .ok ⟨mem, pushUint64 (mem.getD (effAddr off base) 0) rest⟩
    else .error (.errOutOfBoundsMemoryAccess, ⟨mem, base :: rest⟩)
  | [] => .error (.runtimeIndexOutOfRange, ⟨mem, []⟩)

def i64Load16s (off : Nat) (mem : List Nat) : Stack → MemResult
  | base :: rest =>
    if effAddr off base + 1 < mem.length then
      .ok ⟨mem, pushInt64 (int16OfBits (readLE mem (effAddr off base) 2)) rest⟩
    else .error (.errOutOfBoundsMemoryAccess, ⟨mem, base :: rest⟩)
  | [] => .error (.runtimeIndexOutOfRange, ⟨mem, []⟩)

def i64Load16u (off : Nat) (mem : List Nat) : Stack → MemResult
  | base :: rest =>
    if effAddr off base + 1 < mem.length then
      .ok ⟨mem, pushUint64 (readLE mem (effAddr off base) 2) rest⟩
    else .error (.errOutOfBoundsMemoryAccess, ⟨mem, base :: rest⟩)
  | [] => .error (.runtimeIndexOutOfRange, ⟨mem, []⟩)

def i64Load32s (off : Nat) (mem : List Nat) : Stack → MemResult
  | base :: rest =>
    if effAddr off base + 3 < mem.length then
      .ok ⟨mem, pushInt64 (int32OfBits (readLE mem (effAddr off base) 4)) rest⟩
    else .error (.errOutOfBoundsMemoryAccess, ⟨mem, base :: rest⟩)
  | [] => .error (.runtimeIndexOutOfRange, ⟨mem, []⟩)

def i64Load32u (off : Nat) (mem : List Nat) : Stack → MemResult
  | base :: rest =>
    if effAddr off base + 3 < mem.length then
      .ok ⟨mem, pushUint64 (readLE mem (effAddr off base) 4) rest⟩
    else .error (.errOutOfBoundsMemoryAccess, ⟨mem, base :: rest⟩)
  | [] => .error (.runtimeIndexOutOfRange, ⟨mem, []⟩)

/-- `vm.f32Load`: pushes `Float32frombits` of the 4 bytes; since
`pushFloat32` immediately takes `Float32bits` again and Go's
frombits/bits round-trip preserves the pattern, the pushed word is the raw
32-bit pattern. -/
def f32Load (off : Nat) (mem : List Nat) : Stack → MemResult
  | base :: rest =>
    if effAddr off base + 3 < mem.length then
      .ok ⟨mem, pushUint32 (readLE mem (effAddr off base) 4) rest⟩
    else .error (.errOutOfBoundsMemoryAccess, ⟨mem, base :: rest⟩)
  | [] => .error (.runtimeIndexOutOfRange, ⟨mem, []⟩)

def f64Load (off : Nat) (mem : List Nat) : Stack → MemResult
  | base :: rest =>
    if effAddr off base + 7 < mem.length then
      .ok ⟨mem, pushUint64 (readLE mem (effAddr off base) 8) rest⟩
    else .error (.errOutOfBoundsMemoryAccess, ⟨mem, base :: rest⟩)
  | [] => .error (.runtimeIndexOutOfRange, ⟨mem, []⟩)

/-- `vm.i32Store`: pop the value first, then the bounds check (which peeks at
the base still on the stack); on failure the panic happens before any byte is
written. -/
def i32Store (off : Nat) (mem : List Nat) : Stack → MemResult
  | t1 :: base :: rest =>
    if effAddr off base + 3 < mem.length then
      .ok ⟨writeLE mem (effAddr off base) (toUint32 t1) 4, rest⟩
    else .error (.errOutOfBoundsMemoryAccess, ⟨mem, base :: rest⟩)
  | s => .error (.runtimeIndexOutOfRange, ⟨mem, s.tail⟩)

def i32Store8 (off : Nat) (mem : List Nat) : Stack → MemResult
  | t1 :: base :: rest =>
    if effAddr off base + 0 < mem.length then
      .ok ⟨mem.set (effAddr off base) (toUint32 t1 % 256), rest⟩
    else .error (.errOutOfBoundsMemoryAccess, ⟨mem, base :: rest⟩)
  | s => .error (.runtimeIndexOutOfRange, ⟨mem, s.tail⟩)

def i32Store16 (off : Nat) (mem : List Nat) : Stack → MemResult
  | t1 :: base :: rest =>
    if effAddr off base + 1 < mem.length then
      .ok ⟨writeLE mem (effAddr off base) (toUint32 t1 % 2 ^ 16) 2, rest⟩
    else .error (.errOutOfBoundsMemoryAccess, ⟨mem, base :: rest⟩)
  | s => .error (.runtimeIndexOutOfRange, ⟨mem, s.tail⟩)

def i64Store (off : Nat) (mem : List Nat) : Stack → MemResult
  | t1 :: base :: rest =>
    if effAddr off base + 7 < mem.length then
      .ok ⟨writeLE mem (effAddr off base) (toUint64 t1) 8, rest⟩
    else .error (.errOutOfBoundsMemoryAccess, ⟨mem, base :: rest⟩)
  | s => .error (.runtimeIndexOutOfRange, ⟨mem, s.tail⟩)

def i64Store8 (off : Nat) (mem : List Nat) : Stack → MemResult
  | t1 :: base :: rest =>
    if effAddr off base + 0 < mem.length then
      .ok ⟨mem.set (effAddr off base) (toUint64 t1 % 256), rest⟩
    else .error (.errOutOfBoundsMemoryAccess, ⟨mem, base :: rest⟩)
  | s => .error (.runtimeIndexOutOfRange, ⟨mem, s.tail⟩)

def i64Store16 (off : Nat) (mem : List Nat) : Stack → MemResult
  | t1 :: base :: rest =>
    if effAddr off base + 1 < mem.length then
      .ok ⟨writeLE mem (effAddr off base) (toUint64 t1 % 2 ^ 16) 2, rest⟩
    else .error (.errOutOfBoundsMemoryAccess, ⟨mem, base :: rest⟩)
  | s => .error (.runtimeIndexOutOfRange, ⟨mem, s.tail⟩)

def i64Store32 (off : Nat) (mem : List Nat) : Stack → MemResult
  | t1 :: base :: rest =>
    if effAddr off base + 3 < mem.length then
      .ok ⟨writeLE mem (effAddr off base) (toUint64 t1 % 2 ^ 32) 4, rest⟩
    else .error (.errOutOfBoundsMemoryAccess, ⟨mem, base :: rest⟩)
  | s => .error (.runtimeIndexOutOfRange, ⟨mem, s.tail⟩)

/-- `vm.f32Store`: the popped word is `Float32bits(popFloat32())`, i.e. the
low 32 bits of the slot (Go's bits/frombits round-trip is the identity). -/
def f32Store (off : Nat) (mem : List Nat) : Stack → MemResult
  | t1 :: base :: rest =>
    if effAddr off base + 3 < mem.length then
      .ok ⟨writeLE mem (effAddr off base) (toUint32 t1) 4, rest⟩
    else .error (.errOutOfBoundsMemoryAccess, ⟨mem, base :: rest⟩)
  | s => .error (.runtimeIndexOutOfRange, ⟨mem, s.tail⟩)

def f64Store (off : Nat) (mem : List Nat) : Stack → MemResult
  | t1 :: base :: rest =>
    if effAddr off base + 7 < mem.length then
      .ok ⟨writeLE mem (effAddr off base) (toUint64 t1) 8, rest⟩
    else .error (.errOutOfBoundsMemoryAccess, ⟨mem, base :: rest⟩)
  | s => .error (.runtimeIndexOutOfRange, ⟨mem, s.tail⟩)

/-- The memory access operators of exec/memory.go. -/
inductive MemOp where
  | i32Load | i32Load8s | i32Load8u | i32Load16s | i32Load16u
  | i64Load | i64Load8s | i64Load8u | i64Load16s | i64Load16u
  | i64Load32s | i64Load32u | f32Load | f64Load
  | i32Store | i32Store8 | i32Store16
  | i64Store | i64Store8 | i64Store16 | i64Store32
  | f32Store | f64Store
  deriving DecidableEq, Repr

/-- Access width in bytes. -/
def memWidth : MemOp → Nat
  | .i32Load | .i64Load32s | .i64Load32u | .f32Load => 4
  | .i32Store | .i64Store32 | .f32Store => 4
  | .i32Load8s | .i32Load8u | .i64Load8s | .i64Load8u => 1
  | .i32Store8 | .i64Store8 => 1
  | .i32Load16s | .i32Load16u | .i64Load16s | .i64Load16u => 2
  | .i32Store16 | .i64Store16 => 2
  | .i64Load | .f64Load | .i64Store | .f64Store => 8

/-- Whether the operator is a store (pops a value before the base). -/
def memIsStore : MemOp → Bool
  | .i32Store | .i32Store8 | .i32Store16 => true
  | .i64Store | .i64Store8 | .i64Store16 | .i64Store32 => true
  | .f32Store | .f64Store => true
  | _ => false

/-- Dispatch a memory operator to its handler. -/
def runMem : MemOp → Nat → List Nat → Stack → MemResult
  | .i32Load => i32Load
  | .i32Load8s => i32Load8s
  | .i32Load8u => i32Load8u
  | .i32Load16s => i32Load16s
  | .i32Load16u => i32Load16u
  | .i64Load => i64Load
  | .i64Load8s => i64Load8s
  | .i64Load8u => i64Load8u
  | .i64Load16s => i64Load16s
  | .i64Load16u => i64Load16u
  | .i64Load32s => i64Load32s
  | .i64Load32u => i64Load32u
  | .f32Load => f32Load
  | .f64Load => f64Load
  | .i32Store => i32Store
  | .i32Store8 => i32Store8
  | .i32Store16 => i32Store16
  | .i64Store => i64Store
  | .i64Store8 => i64Store8
  | .i64Store16 => i64Store16
  | .i64Store32 => i64Store32
  | .f32Store => f32Store
  | .f64Store => f64Store

/-- The operand stack a memory operator starts from: stores find the value on
top of the base, loads find the base on top. -/
def memStack (op : MemOp) (base val : Nat) (rest : Stack) : Stack :=
  if memIsStore op then val :: base :: rest else base :: rest

/-! ## call_indirect (call.go)

The value types and function signatures come from the module contract (§6 of
the spec): signatures are parameter and return type sequences over
{i32, i64, f32, f64}.  The wasm package supplying them is outside the core;
only these data shapes are taken from the spec, the checking logic below is
the core's `callIndirect`. -/

/-- A WebAssembly value type (module contract, spec §6). -/
inductive ValType where
  | i32 | i64 | f32 | f64
  deriving DecidableEq, Repr

/-- A function signature: parameter and return type sequences. -/
structure FuncSig where
  params : List ValType
  returns : List ValType
  deriving DecidableEq, Repr

/-- The component-wise comparison loop of `callIndirect`: true when some
position of the zipped sequences disagrees. -/
def sigMismatch (expect actual : List ValType) : Bool :=
  (expect.zip actual).any fun p => p.1 != p.2

/-- `vm.callIndirect`: fetch the expected type entry `types[typeIdx]`, pop
the 32-bit table index, trap `UndefinedElementIndex` when it is out of range
of the table, resolve the callee `funcs[table[tableIndex]]`, trap
`SignatureMismatch` when the parameter or return sequences differ in length
or in any component, and otherwise perform the call (modelled as returning
the resolved callee index together with the remaining stack).  Go's indexing
panics appear as index-out-of-range errors. -/
def callIndirect (types : List FuncSig) (typeIdx : Nat) (table : List Nat)
    (funcs : List FuncSig) : Stack → Except GoPanic (Nat × Stack)
  | [] => .error .runtimeIndexOutOfRange
  | t :: rest =>
    match types.get? (toUint32 typeIdx) with
    | none => .error .runtimeIndexOutOfRange
    | some fnExpect =>
      if table.length ≤ toUint32 t then .error .errUndefinedElementIndex
      else
        match table.get? (toUint32 t) with
        | none => .error .runtimeIndexOutOfRange
        | some elemIndex =>
          match funcs.get? elemIndex with
          | none => .error .runtimeIndexOutOfRange
          | some fnActual =>
            if fnExpect.params.length ≠ fnActual.params.length then
              .error .errSignatureMismatch
            else if fnExpect.returns.length ≠ fnActual.returns.length then
              .error .errSignatureMismatch
            else if sigMismatch fnExpect.params fnActual.params then
              .error .errSignatureMismatch
            else if sigMismatch fnExpect.returns fnActual.returns then
              .error .errSignatureMismatch
            else .ok (elemIndex, rest)

/-! ## Telemetry and ExecCode (vm.go)

`NewVM` without the `PGConnPool` option leaves `vm.pg` and `vm.PgTx` nil.
`opLog` returns immediately when `vm.pg` is nil.  `ExecCode` performs the
function-index bounds test, the argument-arity test, runs the dispatch loop,
and on the way out runs a deferred `vm.PgTx.Commit()` — unconditionally,
whether or not a sink was ever configured. -/

/-- A pending telemetry record: opcode and operation name (the operand field
vectors do not matter to any claim). -/
abbrev LogRecord := Nat × String

/-- The telemetry half of the VM: `vm.pg` (the connection pool, nil when no
sink is configured) and `vm.PgTx` (the transaction `NewVM` begins only when a
pool was passed), modelled by its pending records. -/
structure Telemetry where
  pg : Option Unit
  pgTx : Option (List LogRecord)
  deriving DecidableEq, Repr

/-- The telemetry state of a VM built without a PostgreSQL pool: both `vm.pg`
and `vm.PgTx` stay nil. -/
def noSink : Telemetry := ⟨none, none⟩

/-- `opLog`: returns immediately when `vm.pg == nil`; otherwise inserts one
record through the open transaction.  (When a pool is configured `NewVM`
always begins the transaction, so the map is over `some`; the periodic
re-commit every 10000 records changes no claim here.) -/
def opLog (st : Telemetry) (opCode : Nat) (opName : String) : Telemetry :=
  if st.pg.isNone then st
  else { st with pgTx := st.pgTx.map fun recs => recs ++ [(opCode, opName)] }

/-- `vm.PgTx.Commit()`: a method call through a nil `*pgx.Tx` is Go's
nil-pointer dereference panic; on an open transaction the pending records are
committed. -/
def pgTxCommit : Option (List LogRecord) → Except GoPanic (List LogRecord)
  | none => .error .runtimeNilPointer
  | some recs => .ok recs

/-- The typed host errors `ExecCode` returns to the embedder. -/
inductive HostErr where
  | invalidFunctionIndex (idx : Int)
  | errInvalidArgumentCount
  deriving DecidableEq, Repr

/-- How one `ExecCode` call ends: a typed host error returned by the API, a
panic (Go runtime fault or trap) escaping it (or handed back as an untyped
error under `RecoverPanic`), or the normal result. -/
inductive ExecOutcome where
  | hostErr (e : HostErr)
  | panicked (e : GoPanic)
  | done (res : Nat)
  deriving DecidableEq, Repr

/-- A compiled function as the `ExecCode` prelude sees it: its declared
parameter count (`len(Sig.ParamTypes)` = `compiledFunction.args`). -/
structure CompiledFunction where
  args : Nat
  deriving DecidableEq, Repr

/-- Modelled from the spec: `vm.module.GetFunction(i)` lives in the wasm
package outside the core.  Per the module contract (§6) it yields the entry
of the function index space at a valid index, and no function (Go nil, whose
`.Sig` dereference then panics) outside the space. -/
def getFunction (funcs : List CompiledFunction) (i : Int) : Option CompiledFunction :=
  if 0 ≤ i then funcs.get? i.toNat else none

/-- `vm.ExecCode(fnIndex, args...)`: the index bounds test (note `>` rather
than `>=` against `len(vm.funcs)`), the `GetFunction(fnIndex).Sig.ParamTypes`
arity test, the dispatch loop (abstracted into `bodyResult`, the returned
top-of-stack word), and the deferred `vm.PgTx.Commit()` that runs before the
result is handed back. -/
def ExecCode (st : Telemetry) (funcs : List CompiledFunction) (fnIndex : Int)
    (nargs : Nat) (bodyResult : Nat) : ExecOutcome :=
  if fnIndex > funcs.length then .hostErr (.invalidFunctionIndex fnIndex)
  else
    match getFunction funcs fnIndex with
    | none => .panicked .runtimeNilPointer
    | some f =>
      if f.args ≠ nargs then .hostErr .errInvalidArgumentCount
      else
        match pgTxCommit st.pgTx with
        | .error e => .panicked e
        | .ok _ => .done bodyResult

/-! ## Float-to-integer truncation (conv.go)

The truncation handlers pop a float operand and push
`intN(math.Trunc(floatArg))` with no check of any kind: Go's float-to-int
conversion of a NaN or out-of-range value succeeds with an
implementation-defined result.  The float operand is carried as its IEEE bit
pattern; the numeric conversion (`math.Trunc` composed with Go's
implementation-defined narrowing) is abstracted as `conv`, because no claim
depends on the value produced, only on the absence of a trap. -/

def i32TruncSF32 (conv : Nat → Int) : Stack → Except GoPanic Stack
  | t1 :: rest => .ok (pushInt32 (conv (toUint32 t1)) rest)
  | _ => .error .runtimeIndexOutOfRange

def i32TruncUF32 (conv : Nat → Nat) : Stack → Except GoPanic Stack
  | t1 :: rest => .ok (pushUint32 (conv (toUint32 t1)) rest)
  | _ => .error .runtimeIndexOutOfRange

def i32TruncSF64 (conv : Nat → Int) : Stack → Except GoPanic Stack
  | t1 :: rest => .ok (pushInt32 (conv (toUint64 t1)) rest)
  | _ => .error .runtimeIndexOutOfRange

def i32TruncUF64 (conv : Nat → Nat) : Stack → Except GoPanic Stack
  | t1 :: rest => .ok (pushUint32 (conv (toUint64 t1)) rest)
  | _ => .error .runtimeIndexOutOfRange

def i64TruncSF32 (conv : Nat → Int) : Stack → Except GoPanic Stack
  | t1 :: rest => .ok (pushInt64 (conv (toUint32 t1)) rest)
  | _ => .error .runtimeIndexOutOfRange

def i64TruncUF32 (conv : Nat → Nat) : Stack → Except GoPanic Stack
  | t1 :: rest => .ok (pushUint64 (conv (toUint32 t1)) rest)
  | _ => .error .runtimeIndexOutOfRange

def i64TruncSF64 (conv : Nat → Int) : Stack → Except GoPanic Stack
  | t1 :: rest => .ok (pushInt64 (conv (toUint64 t1)) rest)
  | _ => .error .runtimeIndexOutOfRange

def i64TruncUF64 (conv : Nat → Nat) : Stack → Except GoPanic Stack
  | t1 :: rest => .ok (pushUint64 (conv (toUint64 t1)) rest)
  | _ => .error .runtimeIndexOutOfRange

/-! ## The other conversions popping a 32-bit operand (conv.go)

`i64ExtendSI32`/`i64ExtendUI32` are pure integer extensions.  The
integer-to-float conversions and the f32 promotion produce an IEEE bit
pattern; that numeric map is abstracted as `conv` (the handlers reach their
operand only through `popInt32`/`popUint32`/`popFloat32`, i.e. the low
32 bits). -/

/-- `vm.i64ExtendSI32`: `int64(vm.popInt32())`, pushed sign-extended. -/
def i64ExtendSI32 : Stack → Except GoPanic Stack
  | t1 :: rest => .ok (pushInt64 (int32OfBits t1) rest)
  | _ => .error .runtimeIndexOutOfRange

/-- `vm.i64ExtendUI32`: `uint64(vm.popUint32())`, pushed zero-extended. -/
def i64ExtendUI32 : Stack → Except GoPanic Stack
  | t1 :: rest => .ok (pushUint64 (toUint32 t1) rest)
  | _ => .error .runtimeIndexOutOfRange

/-- `vm.f32ConvertSI32`: `pushFloat32(float32(vm.popInt32()))`; `conv` is
`Float32bits ∘ float32` on the signed operand. -/
def f32ConvertSI32 (conv : Int → Nat) : Stack → Except GoPanic Stack
  | t1 :: rest => .ok (pushUint32 (conv (int32OfBits t1)) rest)
  | _ => .error .runtimeIndexOutOfRange

/-- `vm.f32ConvertUI32`: `pushFloat32(float32(vm.popUint32()))`. -/
def f32ConvertUI32 (conv : Nat → Nat) : Stack → Except GoPanic Stack
  | t1 :: rest => .ok (pushUint32 (conv (toUint32 t1)) rest)
  | _ => .error .runtimeIndexOutOfRange

/-- `vm.f64ConvertSI32`: `pushFloat64(float64(vm.popInt32()))`; `conv` is
`Float64bits ∘ float64` on the signed operand. -/
def f64ConvertSI32 (conv : Int → Nat) : Stack → Except GoPanic Stack
  | t1 :: rest => .ok (pushUint64 (conv (int32OfBits t1)) rest)
  | _ => .error .runtimeIndexOutOfRange

/-- `vm.f64ConvertUI32`: `pushFloat64(float64(vm.popUint32()))`. -/
def f64ConvertUI32 (conv : Nat → Nat) : Stack → Except GoPanic Stack
  | t1 :: rest => .ok (pushUint64 (conv (toUint32 t1)) rest)
  | _ => .error .runtimeIndexOutOfRange

/-- `vm.f64PromoteF32`: `pushFloat64(float64(vm.popFloat32()))`; `conv` is
`Float64bits ∘ float64 ∘ Float32frombits` on the operand's low 32 bits. -/
def f64PromoteF32 (conv : Nat → Nat) : Stack → Except GoPanic Stack
  | t1 :: rest => .ok (pushUint64 (conv (toUint32 t1)) rest)
  | _ => .error .runtimeIndexOutOfRange

/-! ## The 32-bit operator family as one dispatchable type

Every 32-bit handler reads its operands through `popUint32`/`popInt32`/
`popFloat32`, i.e. through the low 32 bits of the popped slots.  The f32
handlers additionally apply IEEE-754 arithmetic between `Float32frombits`
and `Float32bits`; that arithmetic, viewed as functions on the 32-bit
patterns, is abstracted into an `F32Sem` record — the claims about these
handlers quantify over it. -/

/-- The f32 arithmetic/comparison functions on IEEE bit patterns
(`Float32bits ∘ op ∘ Float32frombits`). -/
structure F32Sem where
  fabs : Nat → Nat
  fneg : Nat → Nat
  fceil : Nat → Nat
  ffloor : Nat → Nat
  ftrunc : Nat → Nat
  fnearest : Nat → Nat
  fsqrt : Nat → Nat
  fadd : Nat → Nat → Nat
  fsub : Nat → Nat → Nat
  fmul : Nat → Nat → Nat
  fdiv : Nat → Nat → Nat
  fmin : Nat → Nat → Nat
  fmax : Nat → Nat → Nat
  fcopysign : Nat → Nat → Nat
  feq : Nat → Nat → Bool
  fne : Nat → Nat → Bool
  flt : Nat → Nat → Bool
  fgt : Nat → Nat → Bool
  fle : Nat → Nat → Bool
  fge : Nat → Nat → Bool

/-- An f32 unary handler (`v1 := popFloat32(); push(op v1)`). -/
def f32Unop (f : Nat → Nat) : Stack → Except GoPanic Stack
  | t1 :: rest => .ok (pushUint32 (f (toUint32 t1)) rest)
  | _ => .error .runtimeIndexOutOfRange

/-- An f32 binary handler (`v2 := popFloat32(); v1 := popFloat32();
push(v1 op v2)`). -/
def f32Binop (f : Nat → Nat → Nat) : Stack → Except GoPanic Stack
  | t1 :: t2 :: rest => .ok (pushUint32 (f (toUint32 t2) (toUint32 t1)) rest)
  | _ => .error .runtimeIndexOutOfRange

/-- An f32 comparison handler (`v2 := popFloat32(); v1 := popFloat32();
pushBool(v1 cmp v2)`). -/
def f32Cmp (f : Nat → Nat → Bool) : Stack → Except GoPanic Stack
  | t1 :: t2 :: rest => .ok (pushBool (f (toUint32 t2) (toUint32 t1)) rest)
  | _ => .error .runtimeIndexOutOfRange

/-- The abstracted numeric maps of the conv.go handlers that pop a 32-bit
operand: the float-to-int truncations and the int/float-to-float conversions,
each as a function between the operand's 32-bit reading and the pushed
value. -/
structure ConvSem where
  truncSF32 : Nat → Int
  truncUF32 : Nat → Nat
  trunc64SF32 : Nat → Int
  trunc64UF32 : Nat → Nat
  convF32SI32 : Int → Nat
  convF32UI32 : Nat → Nat
  convF64SI32 : Int → Nat
  convF64UI32 : Nat → Nat
  promoteF32 : Nat → Nat

/-- The operator handlers that pop only i32/f32-typed slots: the integer and
float 32-bit operators of num.go, and the conv.go conversions whose operand
is an i32 or f32. -/
inductive Op32 where
  | i32Clz | i32Ctz | i32Popcnt | i32Eqz
  | i32Add | i32Sub | i32Mul | i32DivS | i32DivU | i32RemS | i32RemU
  | i32And | i32Or | i32Xor | i32Shl | i32ShrS | i32ShrU | i32Rotl | i32Rotr
  | i32Eq | i32Ne | i32LtS | i32LtU | i32GtS | i32GtU
  | i32LeS | i32LeU | i32GeS | i32GeU
  | f32Abs | f32Neg | f32Ceil | f32Floor | f32Trunc | f32Nearest | f32Sqrt
  | f32Add | f32Sub | f32Mul | f32Div | f32Min | f32Max | f32Copysign
  | f32Eq | f32Ne | f32Lt | f32Gt | f32Le | f32Ge
  | i32TruncSF32 | i32TruncUF32 | i64TruncSF32 | i64TruncUF32
  | i64ExtendSI32 | i64ExtendUI32
  | f32ConvertSI32 | f32ConvertUI32 | f64ConvertSI32 | f64ConvertUI32
  | f64PromoteF32
  deriving DecidableEq, Repr

/-- Dispatch a 32-bit operator to its handler. -/
def run32 (fs : F32Sem) (cs : ConvSem) : Op32 → Stack → Except GoPanic Stack
  | .i32Clz => i32Clz
  | .i32Ctz => i32Ctz
  | .i32Popcnt => i32Popcnt
  | .i32Eqz => i32Eqz
  | .i32Add => i32Add
  | .i32Sub => i32Sub
  | .i32Mul => i32Mul
  | .i32DivS => i32DivS
  | .i32DivU => i32DivU
  | .i32RemS => i32RemS
  | .i32RemU => i32RemU
  | .i32And => i32And
  | .i32Or => i32Or
  | .i32Xor => i32Xor
  | .i32Shl => i32Shl
  | .i32ShrS => i32ShrS
  | .i32ShrU => i32ShrU
  | .i32Rotl => i32Rotl
  | .i32Rotr => i32Rotr
  | .i32Eq => i32Eq
  | .i32Ne => i32Ne
  | .i32LtS => i32LtS
  | .i32LtU => i32LtU
  | .i32GtS => i32GtS
  | .i32GtU => i32GtU
  | .i32LeS => i32LeS
  | .i32LeU => i32LeU
  | .i32GeS => i32GeS
  | .i32GeU => i32GeU
  | .f32Abs => f32Unop fs.fabs
  | .f32Neg => f32Unop fs.fneg
  | .f32Ceil => f32Unop fs.fceil
  | .f32Floor => f32Unop fs.ffloor
  | .f32Trunc => f32Unop fs.ftrunc
  | .f32Nearest => f32Unop fs.fnearest
  | .f32Sqrt => f32Unop fs.fsqrt
  | .f32Add => f32Binop fs.fadd
  | .f32Sub => f32Binop fs.fsub
  | .f32Mul => f32Binop fs.fmul
  | .f32Div => f32Binop fs.fdiv
  | .f32Min => f32Binop fs.fmin
  | .f32Max => f32Binop fs.fmax
  | .f32Copysign => f32Binop fs.fcopysign
  | .f32Eq => f32Cmp fs.feq
  | .f32Ne => f32Cmp fs.fne
  | .f32Lt => f32Cmp fs.flt
  | .f32Gt => f32Cmp fs.fgt
  | .f32Le => f32Cmp fs.fle
  | .f32Ge => f32Cmp fs.fge
  | .i32TruncSF32 => i32TruncSF32 cs.truncSF32
  | .i32TruncUF32 => i32TruncUF32 cs.truncUF32
  | .i64TruncSF32 => i64TruncSF32 cs.trunc64SF32
  | .i64TruncUF32 => i64TruncUF32 cs.trunc64UF32
  | .i64ExtendSI32 => i64ExtendSI32
  | .i64ExtendUI32 => i64ExtendUI32
  | .f32ConvertSI32 => f32ConvertSI32 cs.convF32SI32
  | .f32ConvertUI32 => f32ConvertUI32 cs.convF32UI32
  | .f64ConvertSI32 => f64ConvertSI32 cs.convF64SI32
  | .f64ConvertUI32 => f64ConvertUI32 cs.convF64UI32
  | .f64PromoteF32 => f64PromoteF32 cs.promoteF32

/-- How many operand slots the handler pops. -/
def arity32 : Op32 → Nat
  | .i32Clz | .i32Ctz | .i32Popcnt | .i32Eqz => 1
  | .f32Abs | .f32Neg | .f32Ceil | .f32Floor => 1
  | .f32Trunc | .f32Nearest | .f32Sqrt => 1
  | .i32TruncSF32 | .i32TruncUF32 | .i64TruncSF32 | .i64TruncUF32 => 1
  | .i64ExtendSI32 | .i64ExtendUI32 => 1
  | .f32ConvertSI32 | .f32ConvertUI32 => 1
  | .f64ConvertSI32 | .f64ConvertUI32 | .f64PromoteF32 => 1
  | _ => 2

/-- The operand stack the handler starts from: its popped slots on top of
`rest`. -/
def stackArgs32 (op : Op32) (x y : Slot) (rest : Stack) : Stack :=
  if arity32 op = 2 then x :: y :: rest else x :: rest

/-- An arbitrary instantiation of the abstracted f32 semantics, used only to
exercise theorems at concrete inputs. -/
def constF32Sem : F32Sem :=
  ⟨fun b => b, fun b => b, fun b => b, fun b => b, fun b => b, fun b => b,
   fun b => b, fun _ b => b, fun _ b => b, fun _ b => b, fun _ b => b,
   fun _ b => b, fun _ b => b, fun _ b => b, fun _ _ => false,
   fun _ _ => false, fun _ _ => false, fun _ _ => false, fun _ _ => false,
   fun _ _ => false⟩

/-- An arbitrary instantiation of the abstracted conversion maps, used only
to exercise theorems at concrete inputs. -/
def constConvSem : ConvSem :=
  ⟨fun _ => 0, fun b => b, fun _ => 0, fun b => b, fun _ => 0, fun b => b,
   fun _ => 0, fun b => b, fun b => b⟩

/-- Whether every slot the memory operator pops is i32/f32-typed: true for
every load (the only pop is the 32-bit base) and for the stores whose value
operand is an i32 or f32; false for the stores popping an i64/f64 value. -/
def memValIs32 : MemOp → Bool
  | .i64Store | .i64Store8 | .i64Store16 | .i64Store32 | .f64Store => false
  | _ => true

/-- The observable agreement of two memory-handler outcomes: identical
states on success; on a trap, the same trap value, the same (unwritten)
memory, and the same stack depth.  (At trap time the base slot was never
popped — `inBounds` only peeks — so the dying activation's stack may keep
its upper bits verbatim.) -/
def memLowEquiv : MemResult → MemResult → Prop
  | .ok a, .ok b => a = b
  | .error (e1, st1), .error (e2, st2) =>
    e1 = e2 ∧ st1.mem = st2.mem ∧ st1.stack.length = st2.stack.length
  | _, _ => False

/-! ## Helper lemmas about the word encodings -/

theorem int32OfBits_bits32OfInt (a : Int) (h₁ : -2 ^ 31 ≤ a) (h₂ : a < 2 ^ 31) :
    int32OfBits (bits32OfInt a) = a := by
  unfold int32OfBits bits32OfInt
  omega

/-- In-range signed quotients do not overflow: `a.tdiv b` stays in `int32`
range as long as the two forbidden operand pairs are excluded. -/
theorem tdiv_int32_range (a b : Int) (ha₁ : -2 ^ 31 ≤ a) (ha₂ : a < 2 ^ 31)
    (hb0 : b ≠ 0) (hov : ¬(a = -2 ^ 31 ∧ b = -1)) :
    -2 ^ 31 ≤ a.tdiv b ∧ a.tdiv b < 2 ^ 31 := by
  by_cases hb1 : b = 1
  · subst hb1
    rw [Int.tdiv_one]
    omega
  by_cases hbm : b = -1
  · subst hbm
    have h : a.tdiv (-1) = -a := by simp
    rw [h]
    have : a ≠ -2 ^ 31 := by
      intro hc
      exact hov ⟨hc, rfl⟩
    omega
  · have h2b : 2 ≤ b.natAbs := by omega
    have h : (a.tdiv b).natAbs = a.natAbs / b.natAbs := Int.natAbs_tdiv a b
    have hle : a.natAbs / b.natAbs ≤ a.natAbs / 2 :=
      Nat.div_le_div_left h2b (by omega)
    have ha : a.natAbs ≤ 2 ^ 31 := by omega
    have hhalf : a.natAbs / 2 ≤ 2 ^ 31 / 2 := Nat.div_le_div_right ha
    omega

/-! ## Claim theorems: numeric operators -/

/-- Claim C3.  The claim states that division/remainder with zero divisor
traps `DivideByZero` and that `INT_MIN / -1` traps `IntegerOverflowInDivision`.
The code has neither check: `i32DivS`/`i64DivS` compute Go's `/`, so
`INT_MIN / -1` wraps around and pushes `INT_MIN` with no trap at all, and a
zero divisor raises Go's untyped run-time divide error (the codebase defines
no `DivideByZero` or `IntegerOverflowInDivision` trap value anywhere). -/
theorem c3_div_overflow_not_trapped :
    i32DivS [bits32OfInt (-1), bits32OfInt (-(2 ^ 31))] =
      .ok [bits64OfInt (-(2 ^ 31))] ∧
    i32DivS [0, 1] = .error .runtimeDivideByZero ∧
    i32RemS [0, 1] = .error .runtimeDivideByZero ∧
    i64DivS [bits64OfInt (-1), bits64OfInt (-(2 ^ 63))] =
      .ok [bits64OfInt (-(2 ^ 63))] ∧
    i64DivS [0, 1] = .error .runtimeDivideByZero := by
  refine ⟨?_, ?_, ?_, ?_, ?_⟩ <;> decide

/-- Claim C5.  For in-range 32-bit operands with nonzero divisor, excluding
`(INT32_MIN, -1)`, `i32.div_s` pushes the truncating (round-toward-zero)
quotient and `i32.rem_s` pushes `a - (a/b)·b`. -/
theorem c5_i32_divs_rems_truncating (a b : Int) (rest : Stack)
    (ha₁ : -2 ^ 31 ≤ a) (ha₂ : a < 2 ^ 31) (hb₁ : -2 ^ 31 ≤ b) (hb₂ : b < 2 ^ 31)
    (hb0 : b ≠ 0) (hov : ¬(a = -2 ^ 31 ∧ b = -1)) :
    i32DivS (bits32OfInt b :: bits32OfInt a :: rest) =
      .ok (pushInt32 (a.tdiv b) rest) ∧
    i32RemS (bits32OfInt b :: bits32OfInt a :: rest) =
      .ok (pushInt32 (a - a.tdiv b * b) rest) := by
  have hA := int32OfBits_bits32OfInt a ha₁ ha₂
  have hB := int32OfBits_bits32OfInt b hb₁ hb₂
  have hq := tdiv_int32_range a b ha₁ ha₂ hb0 hov
  have hgoDiv : goDiv32 a b = .ok (wrap32 (a.tdiv b)) := by
    rw [goDiv32, if_neg hb0]
  have hgoRem : goRem32 a b = .ok (a.tmod b) := by
    rw [goRem32, if_neg hb0]
  have hw : wrap32 (a.tdiv b) = a.tdiv b := by
    rw [wrap32]
    omega
  have htm : a.tmod b = a - a.tdiv b * b := by
    have h := Int.tdiv_add_tmod a b
    have h2 : b * a.tdiv b = a.tdiv b * b := Int.mul_comm b (a.tdiv b)
    omega
  constructor
  · simp only [i32DivS, hA, hB, hgoDiv, hw, Except.map]
  · simp only [i32RemS, hA, hB, hgoRem, htm, Except.map]

/-- Witness for C5 at `a = 7`, `b = -2` (Go: `7 / -2 = -3`, `7 % -2 = 1`). -/
theorem c5_i32_divs_rems_truncating_witness :
    i32DivS (bits32OfInt (-2) :: bits32OfInt 7 :: []) =
      .ok (pushInt32 ((7 : Int).tdiv (-2)) []) ∧
    i32RemS (bits32OfInt (-2) :: bits32OfInt 7 :: []) =
      .ok (pushInt32 ((7 : Int) - (7 : Int).tdiv (-2) * (-2)) []) :=
  c5_i32_divs_rems_truncating 7 (-2) [] (by decide) (by decide) (by decide)
    (by decide) (by decide) (by decide)

/-- Claim C6.  The claim states shift amounts are masked modulo the operand
width, so that `i32.shl(1, 32) = 1`.  The Go handlers do not mask: a shift
count equal to the width clears the value, so `i32.shl(1, 32) = 0`,
`i32.shr_u(2^31, 32) = 0` and `i64.shl(1, 64) = 0`. -/
theorem c6_shift_count_unmasked :
    i32Shl [32, 1] = .ok [0] ∧
    i32ShrU [32, 2 ^ 31] = .ok [0] ∧
    i64Shl [64, 1] = .ok [0] := by
  refine ⟨?_, ?_, ?_⟩ <;> decide

/-- The common shape of every memory handler's bounds check: the source tests
`addr + (w-1) < len`, which holds exactly when `addr + w ≤ len`, and the
failing branch is the out-of-bounds panic. -/
theorem memBoundsAux (a L k w : Nat) (hk : k + 1 = w) (x : MemVM)
    (e : GoPanic × MemVM) :
    ((if a + k < L then (.ok x : MemResult) else .error e).isOk = true ↔
      a + w ≤ L) ∧
    (L < a + w →
      (if a + k < L then (.ok x : MemResult) else .error e) = .error e) := by
  by_cases h : a + k < L <;> simp [h, Except.isOk, Except.toBool] <;> omega

/-- Claim C1.  Every load/store of width `w ∈ {1,2,4,8}` bytes, with effective
address `addr = (offset + base) mod 2^32`, succeeds exactly when
`addr + w ≤ len(memory)` (the source checks `int(addr) + (w-1) < len`), and a
failing access traps `OutOfBoundsMemoryAccess` leaving linear memory
unchanged (a store pops its value before the check, but writes nothing). -/
theorem c1_memory_bounds (op : MemOp) (off base val : Nat) (rest : Stack)
    (mem : List Nat) :
    ((runMem op off mem (memStack op base val rest)).isOk = true ↔
      effAddr off base + memWidth op ≤ mem.length) ∧
    (mem.length < effAddr off base + memWidth op →
      runMem op off mem (memStack op base val rest) =
        .error (.errOutOfBoundsMemoryAccess, ⟨mem, base :: rest⟩)) := by
  cases op <;>
    simp only [runMem, memStack, memWidth, memIsStore, if_true, if_false,
      Bool.false_eq_true, ite_true, ite_false,
      i32Load, i32Load8s, i32Load8u, i32Load16s, i32Load16u,
      i64Load, i64Load8s, i64Load8u, i64Load16s, i64Load16u,
      i64Load32s, i64Load32u, f32Load, f64Load,
      i32Store, i32Store8, i32Store16,
      i64Store, i64Store8, i64Store16, i64Store32,
      f32Store, f64Store] <;>
    exact memBoundsAux _ _ _ _ rfl _ _

/-- Witness for C1: an `i32.store` at base 4 into a 4-byte memory fails the
bounds check, traps `OutOfBoundsMemoryAccess`, and leaves memory unchanged;
the same store into an 8-byte memory succeeds. -/
theorem c1_memory_bounds_witness :
    runMem .i32Store 0 [9, 9, 9, 9] [0xDEADBEEF, 4] =
      .error (.errOutOfBoundsMemoryAccess, ⟨[9, 9, 9, 9], [4]⟩) ∧
    (runMem .i32Store 0 [9, 9, 9, 9, 9, 9, 9, 9] [0xDEADBEEF, 4]).isOk
      = true :=
  ⟨(c1_memory_bounds .i32Store 0 4 0xDEADBEEF [] [9, 9, 9, 9]).2 (by decide),
   (c1_memory_bounds .i32Store 0 4 0xDEADBEEF [] [9, 9, 9, 9, 9, 9, 9, 9]).1.mpr
     (by decide)⟩

/-- When the lengths agree, the component-wise loop finds no mismatch exactly
when the two type sequences are equal. -/
theorem sigMismatch_false_iff (e a : List ValType) (hlen : e.length = a.length) :
    sigMismatch e a = false ↔ e = a := by
  induction e generalizing a with
  | nil =>
    cases a with
    | nil => simp [sigMismatch]
    | cons y ys => simp at hlen
  | cons x xs ih =>
    cases a with
    | nil => simp at hlen
    | cons y ys =>
      simp only [List.length_cons, Nat.add_right_cancel_iff] at hlen
      simp only [sigMismatch, List.zip_cons_cons, List.any_cons, Bool.or_eq_false_iff,
        bne_eq_false_iff_eq, List.cons.injEq]
      rw [← sigMismatch]
      rw [ih ys hlen]

/-- The four-test cascade of `callIndirect` (two length tests, two
component loops) succeeds exactly when both type sequences are equal. -/
theorem sigChecks_eq (e a : FuncSig) (k : Nat) (r : Stack) :
    (if e.params.length ≠ a.params.length then
        (.error .errSignatureMismatch : Except GoPanic (Nat × Stack))
      else if e.returns.length ≠ a.returns.length then .error .errSignatureMismatch
      else if sigMismatch e.params a.params then .error .errSignatureMismatch
      else if sigMismatch e.returns a.returns then .error .errSignatureMismatch
      else .ok (k, r)) =
    (if e.params = a.params ∧ e.returns = a.returns then .ok (k, r)
      else .error .errSignatureMismatch) := by
  by_cases h1 : e.params.length = a.params.length
  · by_cases h2 : e.returns.length = a.returns.length
    · simp only [h1, h2, ne_eq, not_true_eq_false, if_false, ite_false]
      by_cases h3 : sigMismatch e.params a.params
      · have : e.params ≠ a.params := by
          intro hc
          rw [← sigMismatch_false_iff e.params a.params h1] at hc
          simp [hc] at h3
        simp [h3, this]
      · have hp : e.params = a.params := by
          rw [← sigMismatch_false_iff e.params a.params h1]
          simp at h3
          exact h3
        by_cases h4 : sigMismatch e.returns a.returns
        · have : e.returns ≠ a.returns := by
            intro hc
            rw [← sigMismatch_false_iff e.returns a.returns h2] at hc
            simp [hc] at h4
          simp [h3, h4, this]
        · have hr : e.returns = a.returns := by
            rw [← sigMismatch_false_iff e.returns a.returns h2]
            simp at h4
            exact h4
          have h3f : sigMismatch e.params a.params = false := by
            simp at h3
            exact h3
          have h4f : sigMismatch e.returns a.returns = false := by
            simp at h4
            exact h4
          rw [h3f, h4f]
          simp [hp, hr]
    · have : e.returns ≠ a.returns := fun hc => h2 (by rw [hc])
      simp [h1, h2, this]
  · have : e.params ≠ a.params := fun hc => h1 (by rw [hc])
    simp [h1, this]

/-- Claim C4.  `call_indirect` traps `UndefinedElementIndex` when the popped
32-bit table index is out of range; otherwise it resolves the callee and traps
`SignatureMismatch` — without transferring control — whenever the parameter or
return type sequences differ in length or in any component, and performs the
call exactly when both sequences match component-wise. -/
theorem c4_call_indirect_checks (types : List FuncSig) (typeIdx : Nat)
    (table : List Nat) (funcs : List FuncSig) (t : Nat) (rest : Stack)
    (fnExpect : FuncSig)
    (htypes : types.get? (toUint32 typeIdx) = some fnExpect) :
    (table.length ≤ toUint32 t →
      callIndirect types typeIdx table funcs (t :: rest) =
        .error .errUndefinedElementIndex) ∧
    (∀ elemIndex fnActual,
      table.get? (toUint32 t) = some elemIndex →
      funcs.get? elemIndex = some fnActual →
      ((fnExpect.params ≠ fnActual.params ∨ fnExpect.returns ≠ fnActual.returns) →
        callIndirect types typeIdx table funcs (t :: rest) =
          .error .errSignatureMismatch) ∧
      (callIndirect types typeIdx table funcs (t :: rest) = .ok (elemIndex, rest) ↔
        (fnExpect.params = fnActual.params ∧ fnExpect.returns = fnActual.returns))) := by
  constructor
  · intro hout
    have htypes' : types[toUint32 typeIdx]? = some fnExpect := by
      rw [← List.get?_eq_getElem?]
      exact htypes
    simp [callIndirect, htypes', hout]
  · intro elemIndex fnActual htab hfun
    have hlt : toUint32 t < table.length := by
      rcases List.get?_eq_some.mp htab with ⟨hw, _⟩
      exact hw
    have hnot : ¬ table.length ≤ toUint32 t := by omega
    have hred : callIndirect types typeIdx table funcs (t :: rest) =
        (if fnExpect.params = fnActual.params ∧ fnExpect.returns = fnActual.returns
          then .ok (elemIndex, rest) else .error .errSignatureMismatch) := by
      rw [show callIndirect types typeIdx table funcs (t :: rest) =
        (match types.get? (toUint32 typeIdx) with
        | none => .error .runtimeIndexOutOfRange
        | some fnExpect =>
          if table.length ≤ toUint32 t then .error .errUndefinedElementIndex
          else
            match table.get? (toUint32 t) with
            | none => .error .runtimeIndexOutOfRange
            | some elemIndex =>
              match funcs.get? elemIndex with
              | none => .error .runtimeIndexOutOfRange
              | some fnActual =>
                if fnExpect.params.length ≠ fnActual.params.length then
                  .error .errSignatureMismatch
                else if fnExpect.returns.length ≠ fnActual.returns.length then
                  .error .errSignatureMismatch
                else if sigMismatch fnExpect.params fnActual.params then
                  .error .errSignatureMismatch
                else if sigMismatch fnExpect.returns fnActual.returns then
                  .error .errSignatureMismatch
                else .ok (elemIndex, rest)) from rfl]
      rw [htypes]
      simp only [if_neg hnot, htab, hfun]
      exact sigChecks_eq fnExpect fnActual elemIndex rest
    constructor
    · intro hne
      rw [hred]
      have : ¬ (fnExpect.params = fnActual.params ∧ fnExpect.returns = fnActual.returns) := by
        rcases hne with h | h
        · exact fun hc => h hc.1
        · exact fun hc => h hc.2
      rw [if_neg this]
    · rw [hred]
      by_cases hc : fnExpect.params = fnActual.params ∧ fnExpect.returns = fnActual.returns
      · simp [hc]
      · simp [hc]

/-- Witness for C4 (spec §8 scenario): the table slot points at a
`(i32, i32) → i32` function while the call site expects `(i32) → i32`;
`call_indirect` traps `SignatureMismatch`. -/
theorem c4_call_indirect_checks_witness :
    callIndirect [⟨[.i32], [.i32]⟩] 0 [0] [⟨[.i32, .i32], [.i32]⟩] (0 :: []) =
      .error .errSignatureMismatch :=
  (((c4_call_indirect_checks [⟨[.i32], [.i32]⟩] 0 [0] [⟨[.i32, .i32], [.i32]⟩]
      0 [] ⟨[.i32], [.i32]⟩ (by decide)).2
    0 ⟨[.i32, .i32], [.i32]⟩ (by decide) (by decide)).1
    (Or.inl (by decide)))

/-- Claim C2.  The claim states that with no telemetry sink every logging call
is a no-op and `ExecCode` on a valid function with correct arguments completes
normally.  The first half holds (`opLog` returns immediately when `vm.pg` is
nil), but `ExecCode` unconditionally runs a deferred `vm.PgTx.Commit()`, and
with no sink `vm.PgTx` was never initialised, so every such call ends in a
nil-pointer dereference instead of returning its result. -/
theorem c2_noSink_execCode_panics :
    (∀ opCode opName, opLog noSink opCode opName = noSink) ∧
    (∀ (f : CompiledFunction) (r : Nat),
      ExecCode noSink [f] 0 f.args r = .panicked .runtimeNilPointer) := by
  constructor
  · intro opCode opName
    rfl
  · intro f r
    simp [ExecCode, getFunction, pgTxCommit, noSink]

/-- Claim C9.  `ExecCode` returns `InvalidFunctionIndexError` for indices
strictly greater than the number of functions, and `ErrInvalidArgumentCount`
for a valid index with the wrong number of arguments — but the bounds test
uses `>` instead of `>=`, so the boundary index equal to the number of
functions slips through and the call dies on a Go panic (dereferencing the
missing function) instead of returning the typed error the claim promises. -/
theorem c9_execCode_index_and_arity :
    (∀ (st : Telemetry) (funcs : List CompiledFunction) (fnIndex : Int)
      (nargs r : Nat),
      (funcs.length : Int) < fnIndex →
      ExecCode st funcs fnIndex nargs r = .hostErr (.invalidFunctionIndex fnIndex)) ∧
    (∀ (st : Telemetry) (funcs : List CompiledFunction) (nargs r : Nat),
      ExecCode st funcs (funcs.length : Int) nargs r = .panicked .runtimeNilPointer) ∧
    (∀ (st : Telemetry) (funcs : List CompiledFunction) (f : CompiledFunction)
      (i nargs r : Nat),
      funcs.get? i = some f → f.args ≠ nargs →
      ExecCode st funcs (i : Int) nargs r = .hostErr .errInvalidArgumentCount) := by
  refine ⟨?_, ?_, ?_⟩
  · intro st funcs fnIndex nargs r h
    rw [ExecCode, if_pos (by omega)]
  · intro st funcs nargs r
    rw [ExecCode, if_neg (by omega)]
    have hg : getFunction funcs (funcs.length : Int) = none := by
      rw [getFunction, if_pos (by omega)]
      simp
    rw [hg]
  · intro st funcs f i nargs r hget hne
    have hi : i < funcs.length := by
      rcases List.get?_eq_some.mp hget with ⟨hw, _⟩
      exact hw
    rw [ExecCode, if_neg (by omega)]
    have hg : getFunction funcs (i : Int) = some f := by
      rw [getFunction, if_pos (by omega)]
      simpa using hget
    rw [hg]
    simp only [if_pos hne]

/-- Witness for C9: with one unary function, index 2 yields the typed
index error, and index 0 with zero arguments yields the arity error; the
boundary behaviour is covered by the hypothesis-free middle conjunct. -/
theorem c9_execCode_index_and_arity_witness :
    ExecCode noSink [⟨1⟩] 2 0 0 = .hostErr (.invalidFunctionIndex 2) ∧
    ExecCode noSink [⟨1⟩] 0 0 0 = .hostErr .errInvalidArgumentCount :=
  ⟨c9_execCode_index_and_arity.1 noSink [⟨1⟩] 2 0 0 (by decide),
   c9_execCode_index_and_arity.2.2 noSink [⟨1⟩] ⟨1⟩ 0 0 0 (by decide) (by decide)⟩

/-- Claim C7.  The claim states that float-to-integer truncation traps
(`InvalidConversionToInteger`) on NaN or out-of-range operands.  The handlers
have no check at all: whatever value Go's implementation-defined conversion
yields (quantified here as `conv`), every truncation operator pops its operand
and pushes a result — in particular on the f32 NaN pattern `0x7FC00000` —
and never produces any trap. -/
theorem c7_trunc_never_traps :
    (∀ (conv : Nat → Int) (t : Slot) (rest : Stack),
      i32TruncSF32 conv (t :: rest) = .ok (pushInt32 (conv (toUint32 t)) rest)) ∧
    (∀ (conv : Nat → Nat) (t : Slot) (rest : Stack),
      i32TruncUF32 conv (t :: rest) = .ok (pushUint32 (conv (toUint32 t)) rest)) ∧
    (∀ (conv : Nat → Int) (t : Slot) (rest : Stack),
      i32TruncSF64 conv (t :: rest) = .ok (pushInt32 (conv (toUint64 t)) rest)) ∧
    (∀ (conv : Nat → Nat) (t : Slot) (rest : Stack),
      i32TruncUF64 conv (t :: rest) = .ok (pushUint32 (conv (toUint64 t)) rest)) ∧
    (∀ (conv : Nat → Int) (t : Slot) (rest : Stack),
      i64TruncSF32 conv (t :: rest) = .ok (pushInt64 (conv (toUint32 t)) rest)) ∧
    (∀ (conv : Nat → Nat) (t : Slot) (rest : Stack),
      i64TruncUF32 conv (t :: rest) = .ok (pushUint64 (conv (toUint32 t)) rest)) ∧
    (∀ (conv : Nat → Int) (t : Slot) (rest : Stack),
      i64TruncSF64 conv (t :: rest) = .ok (pushInt64 (conv (toUint64 t)) rest)) ∧
    (∀ (conv : Nat → Nat) (t : Slot) (rest : Stack),
      i64TruncUF64 conv (t :: rest) = .ok (pushUint64 (conv (toUint64 t)) rest)) ∧
    (∀ (conv : Nat → Int),
      i32TruncSF32 conv [0x7FC00000] = .ok [toUint64 (bits64OfInt (conv 0x7FC00000))]) := by
  refine ⟨?_, ?_, ?_, ?_, ?_, ?_, ?_, ?_, ?_⟩ <;> intros <;> rfl

/-- Counterexample to claim C8: `i32.shr_s` of `INT32_MIN` by 0 pushes its
result through `pushInt32`, whose Go `uint64(int32)` conversion sign-extends;
the produced slot `0xFFFFFFFF80000000` has upper 32 bits `0xFFFFFFFF`, not
zero. -/
theorem c8_counterexample :
    i32ShrS [0, 2 ^ 31] = .ok [0xFFFFFFFF80000000] ∧
    (0xFFFFFFFF80000000 : Nat) / 2 ^ 32 ≠ 0 := by
  constructor <;> decide

/-- Claim C8 as amended.  A 32-bit result pushed through `pushUint32` (all
unsigned-typed pushes) occupies the low 32 bits with the upper 32 bits zero;
a result pushed through `pushInt32` (i32.div_s, i32.shr_s, sign-extending
loads, …) is stored as its 64-bit sign extension: the low 32 bits hold the
two's-complement bit pattern, and the upper 32 bits are zero exactly when the
result is non-negative (all ones when it is negative). -/
theorem c8_slot_representation (i : Int) (v : Nat) (s : Stack)
    (h1 : -2 ^ 31 ≤ i) (h2 : i < 2 ^ 31) :
    pushInt32 i s = bits64OfInt i :: s ∧
    bits64OfInt i % 2 ^ 32 = bits32OfInt i ∧
    bits64OfInt i / 2 ^ 32 = (if 0 ≤ i then 0 else 2 ^ 32 - 1) ∧
    pushUint32 v s = toUint32 v :: s ∧
    toUint32 v / 2 ^ 32 = 0 := by
  refine ⟨?_, ?_, ?_, ?_, ?_⟩
  · show toUint64 (bits64OfInt i) :: s = bits64OfInt i :: s
    unfold toUint64 bits64OfInt
    congr 1
    omega
  · unfold bits64OfInt bits32OfInt
    omega
  · unfold bits64OfInt
    by_cases h : 0 ≤ i
    · rw [if_pos h]
      omega
    · rw [if_neg h]
      omega
  · show toUint64 (toUint32 v) :: s = toUint32 v :: s
    unfold toUint64 toUint32
    congr 1
    omega
  · unfold toUint32
    omega

/-- Witness for the amended C8 at `i = -5`, `v = 7`:
`pushInt32 (-5)` yields the sign-extended slot `2^64 - 5`. -/
theorem c8_slot_representation_witness :
    pushInt32 (-5) [] = bits64OfInt (-5) :: [] ∧
    bits64OfInt (-5) % 2 ^ 32 = bits32OfInt (-5) ∧
    bits64OfInt (-5) / 2 ^ 32 = (if 0 ≤ (-5 : Int) then 0 else 2 ^ 32 - 1) ∧
    pushUint32 7 [] = toUint32 7 :: [] ∧
    toUint32 7 / 2 ^ 32 = 0 :=
  c8_slot_representation (-5) 7 [] (by decide) (by decide)

/-- Claim C10.  Every 32-bit operator handler reads only the low 32 bits of
the slots it pops, so those slots' upper 32 bits never influence execution.
First conjunct: every numeric/comparison/conversion handler that pops only
i32/f32 slots (num.go's 32-bit operators and conv.go's conversions from
i32/f32) produces the identical outcome on two stacks agreeing on the low
32 bits of the popped slots, for every choice of the abstracted float
semantics.  Second conjunct: every memory handler's outcome ignores the
upper 32 bits of the popped i32 base — same success state, or the same trap
with memory untouched and the same depth.  Third conjunct: likewise for the
upper 32 bits of the value popped by the i32/f32-typed stores. -/
theorem c10_low32_determinism :
    (∀ (fs : F32Sem) (cs : ConvSem) (op : Op32) (x x' y y' : Nat)
      (rest : Stack),
      x % 2 ^ 32 = x' % 2 ^ 32 → y % 2 ^ 32 = y' % 2 ^ 32 →
      run32 fs cs op (stackArgs32 op x y rest) =
        run32 fs cs op (stackArgs32 op x' y' rest)) ∧
    (∀ (op : MemOp) (off : Nat) (mem : List Nat) (base base' val : Nat)
      (rest : Stack),
      base % 2 ^ 32 = base' % 2 ^ 32 →
      memLowEquiv (runMem op off mem (memStack op base val rest))
        (runMem op off mem (memStack op base' val rest))) ∧
    (∀ (op : MemOp) (off : Nat) (mem : List Nat) (base val val' : Nat)
      (rest : Stack),
      memValIs32 op = true → val % 2 ^ 32 = val' % 2 ^ 32 →
      memLowEquiv (runMem op off mem (memStack op base val rest))
        (runMem op off mem (memStack op base val' rest))) := by
  refine ⟨?_, ?_, ?_⟩
  · intro fs cs op x x' y y' rest hx hy
    have hx4 : x % 4294967296 = x' % 4294967296 := hx
    have hy4 : y % 4294967296 = y' % 4294967296 := hy
    have hxI : (x : Int) % 4294967296 = (x' : Int) % 4294967296 := by omega
    have hyI : (y : Int) % 4294967296 = (y' : Int) % 4294967296 := by omega
    cases op <;>
      simp [run32, stackArgs32, arity32,
        i32Clz, i32Ctz, i32Popcnt, i32Eqz, i32Add, i32Sub, i32Mul, i32DivS,
        i32DivU, i32RemS, i32RemU, i32And, i32Or, i32Xor, i32Shl, i32ShrS,
        i32ShrU, i32Rotl, i32Rotr, i32Eq, i32Ne, i32LtS, i32LtU, i32GtS,
        i32GtU, i32LeS, i32LeU, i32GeS, i32GeU,
        f32Unop, f32Binop, f32Cmp,
        i32TruncSF32, i32TruncUF32, i64TruncSF32, i64TruncUF32,
        i64ExtendSI32, i64ExtendUI32, f32ConvertSI32, f32ConvertUI32,
        f64ConvertSI32, f64ConvertUI32, f64PromoteF32,
        toUint32, int32OfBits, hx, hy, hx4, hy4, hxI, hyI]
  · intro op off mem base base' val rest hb
    have he : effAddr off base = effAddr off base' := by
      unfold effAddr toUint32
      omega
    cases op <;>
      simp only [runMem, memStack, memIsStore, if_true, if_false,
        Bool.false_eq_true, ite_true, ite_false,
        i32Load, i32Load8s, i32Load8u, i32Load16s, i32Load16u,
        i64Load, i64Load8s, i64Load8u, i64Load16s, i64Load16u,
        i64Load32s, i64Load32u, f32Load, f64Load,
        i32Store, i32Store8, i32Store16,
        i64Store, i64Store8, i64Store16, i64Store32,
        f32Store, f64Store] <;>
      rw [he] <;>
      split <;>
      rename_i h <;>
      simp [memLowEquiv, h]
  · intro op off mem base val val' rest hop hv
    have hv4 : val % 4294967296 = val' % 4294967296 := hv
    cases op <;>
      first
        | exact absurd hop (by decide)
        | (simp only [runMem, memStack, memIsStore, if_true, if_false,
            Bool.false_eq_true, ite_true, ite_false,
            i32Load, i32Load8s, i32Load8u, i32Load16s, i32Load16u,
            i64Load, i64Load8s, i64Load8u, i64Load16s, i64Load16u,
            i64Load32s, i64Load32u, f32Load, f64Load,
            i32Store, i32Store8, i32Store16, f32Store]
           split <;>
           rename_i h <;>
           simp [memLowEquiv, h, toUint32, hv4])

/-- Witness for C10: `i32.add` and `i64.extend_s/i32` on slots whose upper
32 bits differ but whose low 32 bits agree produce identical results, and an
`i32.load` outcome is unchanged when the base slot's upper bits change. -/
theorem c10_low32_determinism_witness :
    (run32 constF32Sem constConvSem .i32Add
        (stackArgs32 .i32Add (2 ^ 32 + 5) 7 []) =
      run32 constF32Sem constConvSem .i32Add
        (stackArgs32 .i32Add 5 (2 ^ 32 * 3 + 7) [])) ∧
    (run32 constF32Sem constConvSem .i64ExtendSI32
        (stackArgs32 .i64ExtendSI32 (2 ^ 32 + 5) 0 []) =
      run32 constF32Sem constConvSem .i64ExtendSI32
        (stackArgs32 .i64ExtendSI32 5 0 [])) ∧
    memLowEquiv (runMem .i32Load 0 [9, 9, 9, 9] (memStack .i32Load (2 ^ 32) 0 []))
      (runMem .i32Load 0 [9, 9, 9, 9] (memStack .i32Load 0 0 [])) :=
  ⟨c10_low32_determinism.1 constF32Sem constConvSem .i32Add
      (2 ^ 32 + 5) 5 7 (2 ^ 32 * 3 + 7) [] (by decide) (by decide),
   c10_low32_determinism.1 constF32Sem constConvSem .i64ExtendSI32
      (2 ^ 32 + 5) 5 0 0 [] (by decide) (by decide),
   c10_low32_determinism.2.1 .i32Load 0 [9, 9, 9, 9] (2 ^ 32) 0 0 []
      (by decide)⟩

end Wagon
